import Mathlib

/-!
Verification of the auth + progress-ledger logic of the flashcard web
application (FastAPI + SQLAlchemy).  The data model and each route handler
relevant to the claims are shallowly embedded as executable Lean functions.
Database rows become list entries; SQLAlchemy `scalar_one_or_none` becomes
`List.find?`; an ORM mutation of a fetched row becomes an update of the
first matching list entry; every `await db.commit()` appends one committed
state to the `Outcome.commits` list of the handler (so atomicity of a handler is
visible as the number of commits it performs).
-/

namespace ProjectWord

/-- Row of the `users` table (`app/models.py`, class `User`).  The username,
password hash and creation timestamp play no role in the claims and are
omitted; `id`, `is_active`, `is_admin` are kept. -/
structure UserR where
  id : Nat
  isActive : Bool
  isAdmin : Bool
deriving Repr, DecidableEq

/-- Row of the `cards` table (`app/models.py`, class `Card`). -/
structure CardR where
  id : Nat
  ownerId : Nat
  isPublic : Bool
deriving Repr, DecidableEq

/-- Row of the `progress` table (`app/models.py`, class `Progress`).
Counters are Python ints, modelled as `Int`. -/
structure ProgressR where
  userId : Nat
  totalCards : Int
  completedCards : Int
  markedImportant : Int
deriving Repr, DecidableEq

/-- Row of the `user_card_progress` table (`app/models.py`,
class `UserCardProgress`); timestamps are abstract `Nat` instants. -/
structure UCP where
  userId : Nat
  cardId : Nat
  isCompleted : Bool
  completedAt : Option Nat
deriving Repr, DecidableEq

/-- The relational store: one list per table, in insertion order. -/
structure DB where
  users : List UserR
  cards : List CardR
  progress : List ProgressR
  ucps : List UCP
deriving Repr, DecidableEq

/-- Update the first element satisfying `p` (the row the ORM fetched with
`scalar_one_or_none` and then mutated); all other rows are untouched. -/
def updateFirst (p : α → Bool) (f : α → α) : List α → List α
  | [] => []
  | x :: xs => if p x then f x :: xs else x :: updateFirst p f xs

/-- Query `select(User).where(User.id == uid)` + `scalar_one_or_none`. -/
def findUserById (db : DB) (uid : Nat) : Option UserR :=
  db.users.find? (fun u => u.id == uid)

/-- Query `select(Card).where(Card.id == cid)` + `scalar_one_or_none`. -/
def findCard (db : DB) (cid : Nat) : Option CardR :=
  db.cards.find? (fun c => c.id == cid)

/-- Query `select(Progress).where(Progress.user_id == uid)` + `scalar_one_or_none`. -/
def findProgress (db : DB) (uid : Nat) : Option ProgressR :=
  db.progress.find? (fun p => p.userId == uid)

/-- Query `select(UserCardProgress).where(user_id == uid, card_id == cid)` +
`scalar_one_or_none`. -/
def findUCP (db : DB) (uid cid : Nat) : Option UCP :=
  db.ucps.find? (fun r => r.userId == uid && r.cardId == cid)

/-- Query `select(Card).where(Card.is_public == True)` and `len(...)`, used when a
Progress row is lazily initialised. -/
def countPublicCards (db : DB) : Int :=
  ((db.cards.filter (fun c => c.isPublic)).length : Int)

/-- Response of a handler: a redirect, a plain success payload, or an
`HTTPException` with its status code. -/
inductive Resp where
  | redirect (status : Nat)
  | ok
  | err (status : Nat)
deriving Repr, DecidableEq

/-- What a handler run did to the store: the sequence of committed states
(one entry per `await db.commit()`), plus the response. -/
structure Outcome where
  commits : List DB
  resp : Resp
deriving Repr, DecidableEq

/-- The store after the handler finishes: the last committed state, or the
initial state when the handler never committed. -/
def Outcome.final (o : Outcome) (db0 : DB) : DB :=
  o.commits.getLast?.getD db0

/-- Field `completed_cards` of the Progress row of a user, if it exists. -/
def completedOf (db : DB) (uid : Nat) : Option Int :=
  (findProgress db uid).map (fun p => p.completedCards)

/-- Field `total_cards` of the Progress row of a user, if it exists. -/
def totalOf (db : DB) (uid : Nat) : Option Int :=
  (findProgress db uid).map (fun p => p.totalCards)

/-- Field `completed_cards` of the Progress row of a user, 0 when absent. -/
def completedOrZero (db : DB) (uid : Nat) : Int :=
  (completedOf db uid).getD 0

/-- Whether the (user, card) pair row exists and has `is_completed = True`. -/
def pairCompleted (db : DB) (uid cid : Nat) : Bool :=
  match findUCP db uid cid with
  | some p => p.isCompleted
  | none => false

/-! ### `POST /progress/complete/{card_id}/web` — `complete_card_web`
(`app/api/progress.py` lines 270-333).  All session writes (Progress
creation, pair upsert, counter bump) land in the single `db.commit()` at
line 331, hence exactly one committed state on the success path. -/

/-- Handler `complete_card_web`: `current_user` is the result of the cookie
resolver (`None` → 401); admins get 403; missing card → 404; non-public card
→ 403; otherwise lazily initialise Progress, upsert the pair row and bump
`completed_cards` only when the pair was not already completed. -/
def completeCardWeb (db : DB) (currentUser : Option UserR) (cardId : Nat)
    (now : Nat) : Outcome :=
  match currentUser with
  | none => ⟨[], .err 401⟩
  | some user =>
    if user.isAdmin then ⟨[], .err 403⟩
    else
      match findCard db cardId with
      | none => ⟨[], .err 404⟩
      | some card =>
        if card.isPublic = false then ⟨[], .err 403⟩
        else
          let progExists : Bool := (findProgress db user.id).isSome
          let initTotal : Int := countPublicCards db
          let pairStep : List UCP × Bool :=
            match findUCP db user.id cardId with
            | some p =>
              if p.isCompleted = false then
                (updateFirst (fun r => r.userId == user.id && r.cardId == cardId)
                  (fun r => { r with isCompleted := true, completedAt := some now })
                  db.ucps, true)
              else (db.ucps, false)
            | none =>
              (db.ucps ++ [⟨user.id, cardId, true, some now⟩], true)
          let didInc : Bool := pairStep.2
          let progress2 : List ProgressR :=
            if progExists then
              if didInc then
                updateFirst (fun p => p.userId == user.id)
                  (fun p => { p with completedCards := p.completedCards + 1 })
                  db.progress
              else db.progress
            else
              db.progress ++ [⟨user.id, initTotal, if didInc then 1 else 0, 0⟩]
          ⟨[{ db with ucps := pairStep.1, progress := progress2 }], .redirect 303⟩

/-! ### `POST /learn/{card_id}` — `learn_card` (`app/main.py` lines
453-513).  Unlike `complete_card_web` this route (a) silently redirects
unauthenticated users and admins, (b) marks the pair completed and bumps the
counter without checking whether the pair was already completed, and (c)
commits the pair write and the counter write in two separate transactions;
when a Progress row is missing it creates one with the hard-coded
`total_cards=1, completed_cards=1`. -/

/-- Handler `learn_card`. -/
def learnCard (db : DB) (currentUser : Option UserR) (cardId : Nat)
    (now : Nat) : Outcome :=
  match currentUser with
  | none => ⟨[], .redirect 303⟩
  | some user =>
    if user.isAdmin then ⟨[], .redirect 303⟩
    else
      match findCard db cardId with
      | none => ⟨[], .err 404⟩
      | some card =>
        if card.isPublic = false then ⟨[], .err 403⟩
        else
          let ucps2 : List UCP :=
            match findUCP db user.id cardId with
            | some _ =>
              updateFirst (fun r => r.userId == user.id && r.cardId == cardId)
                (fun r => { r with isCompleted := true, completedAt := some now })
                db.ucps
            | none => db.ucps ++ [⟨user.id, cardId, true, some now⟩]
          let db1 : DB := { db with ucps := ucps2 }
          let progress2 : List ProgressR :=
            match findProgress db1 user.id with
            | some _ =>
              updateFirst (fun p => p.userId == user.id)
                (fun p => { p with completedCards := p.completedCards + 1 })
                db1.progress
            | none => db1.progress ++ [⟨user.id, 1, 1, 0⟩]
          let db2 : DB := { db1 with progress := progress2 }
          ⟨[db1, db2], .redirect 303⟩

/-- Access check of `reset_card_web` (`app/api/progress.py` lines 374-380):
non-admins may reset only their own cards or public cards owned by an
admin. -/
def resetAccessDenied (db : DB) (user : UserR) (card : CardR) : Bool :=
  if user.isAdmin then false
  else if card.ownerId == user.id then false
  else
    match findUserById db card.ownerId with
    | none => true
    | some owner => !owner.isAdmin || !card.isPublic

/-! ### `POST /progress/reset/{card_id}/web` — `reset_card_web`
(`app/api/progress.py` lines 360-407).  Requires an existing completed pair
row (else 404), clears the pair, and decrements `completed_cards` only when
a Progress row exists with a positive counter; one commit. -/

/-- Handler `reset_card_web`. -/
def resetCardWeb (db : DB) (currentUser : Option UserR) (cardId : Nat) :
    Outcome :=
  match currentUser with
  | none => ⟨[], .err 401⟩
  | some user =>
    match findCard db cardId with
    | none => ⟨[], .err 404⟩
    | some card =>
      if resetAccessDenied db user card then ⟨[], .err 403⟩
      else
        match findUCP db user.id cardId with
        | none => ⟨[], .err 404⟩
        | some p =>
          if p.isCompleted = false then ⟨[], .err 404⟩
          else
            let ucps2 : List UCP :=
              updateFirst (fun r => r.userId == user.id && r.cardId == cardId)
                (fun r => { r with isCompleted := false, completedAt := none })
                db.ucps
            let progress2 : List ProgressR :=
              match findProgress db user.id with
              | some prog =>
                if prog.completedCards > 0 then
                  updateFirst (fun q => q.userId == user.id)
                    (fun q => { q with completedCards := q.completedCards - 1 })
                    db.progress
                else db.progress
              | none => db.progress
            ⟨[{ db with ucps := ucps2, progress := progress2 }], .redirect 303⟩

/-! ### `POST /unlearn/{card_id}` — `unlearn_card` (`app/main.py` lines
515-560).  Does not require the pair to have been completed: if a pair row
exists it is cleared and committed (first commit); then the counter is
decremented (second commit) whenever it is positive, even when no pair row
existed.  Raises 404 only when the Progress row of the user is missing. -/

/-- Handler `unlearn_card`. -/
def unlearnCard (db : DB) (currentUser : Option UserR) (cardId : Nat) :
    Outcome :=
  match currentUser with
  | none => ⟨[], .redirect 303⟩
  | some user =>
    if user.isAdmin then ⟨[], .redirect 303⟩
    else
      match findCard db cardId with
      | none => ⟨[], .err 404⟩
      | some card =>
        if card.isPublic = false then ⟨[], .err 403⟩
        else
          let step1 : List DB × DB :=
            match findUCP db user.id cardId with
            | some _ =>
              let ucps2 : List UCP :=
                updateFirst (fun r => r.userId == user.id && r.cardId == cardId)
                  (fun r => { r with isCompleted := false, completedAt := none })
                  db.ucps
              let d : DB := { db with ucps := ucps2 }
              ([d], d)
            | none => ([], db)
          let db1 : DB := step1.2
          match findProgress db1 user.id with
          | none => ⟨step1.1, .err 404⟩
          | some prog =>
            if prog.completedCards > 0 then
              let progress2 : List ProgressR :=
                updateFirst (fun q => q.userId == user.id)
                  (fun q => { q with completedCards := q.completedCards - 1 })
                  db1.progress
              let d2 : DB := { db1 with progress := progress2 }
              ⟨step1.1 ++ [d2], .redirect 303⟩
            else ⟨step1.1, .redirect 303⟩

/-- Body of a `PUT /progress/` request (`app/schemas.py`, `ProgressUpdate`
with `dict(exclude_unset=True)`: `none` models a field the caller did not
send). -/
structure ProgressUpdate where
  totalCards : Option Int
  completedCards : Option Int
  markedImportant : Option Int
deriving Repr, DecidableEq

/-! ### `PUT /progress/` — `update_my_progress` (`app/api/progress.py`
lines 206-242).  Validates `completed_cards ∈ [0, total_cards]` (against the
stored `total_cards`) and `marked_important ≥ 0` before any mutation; on a
validation failure it raises 400 having committed nothing. -/

/-- Handler `update_my_progress`; `user` is the authenticated active user
supplied by the `get_current_active_user` dependency. -/
def updateMyProgress (db : DB) (user : UserR) (upd : ProgressUpdate) :
    Outcome :=
  match findProgress db user.id with
  | none => ⟨[], .err 404⟩
  | some prog =>
    if (match upd.completedCards with | some v => decide (v < 0) | none => false) then
      ⟨[], .err 400⟩
    else if (match upd.completedCards with
             | some v => decide (v > prog.totalCards)
             | none => false) then
      ⟨[], .err 400⟩
    else if (match upd.markedImportant with
             | some m => decide (m < 0)
             | none => false) then
      ⟨[], .err 400⟩
    else
      let progress2 : List ProgressR :=
        updateFirst (fun p => p.userId == user.id)
          (fun p =>
            { p with
              totalCards := upd.totalCards.getD p.totalCards,
              completedCards := upd.completedCards.getD p.completedCards,
              markedImportant := upd.markedImportant.getD p.markedImportant })
          db.progress
      ⟨[{ db with progress := progress2 }], .ok⟩

/-! ### `DELETE /admin/users/{user_id}` — `delete_user` (`app/api/users.py`
lines 66-89).  The router dependency `require_admin` has already admitted
`currentUser`.  The body issues a core `delete(User)` only: the schema
declares no `ON DELETE` action, the SQLite connection never enables foreign
key enforcement, and a core delete bypasses ORM relationship cascades, so
the Progress and UserCardProgress rows of the user survive. -/

/-- Handler `delete_user` (API path). -/
def deleteUser (db : DB) (currentUser : UserR) (userId : Nat) : Outcome :=
  if userId == currentUser.id then ⟨[], .err 400⟩
  else
    match findUserById db userId with
    | none => ⟨[], .err 404⟩
    | some _ =>
      ⟨[{ db with users := db.users.filter (fun u => u.id != userId) }], .ok⟩

/-! ### `POST /admin/users/{user_id}/delete` — `delete_user_admin`
(`app/main.py` lines 397-427).  Explicitly deletes the Progress and
UserCardProgress rows of the user and the user row, in one commit. -/

/-- Handler `delete_user_admin` (web path); `currentUser` comes from
`require_admin_cookie`. -/
def deleteUserAdmin (db : DB) (currentUser : UserR) (userId : Nat) :
    Outcome :=
  if currentUser.isAdmin = false then ⟨[], .err 403⟩
  else if userId == currentUser.id then ⟨[], .redirect 303⟩
  else
    match findUserById db userId with
    | none => ⟨[], .err 404⟩
    | some _ =>
      ⟨[{ db with
            progress := db.progress.filter (fun p => p.userId != userId),
            ucps := db.ucps.filter (fun r => r.userId != userId),
            users := db.users.filter (fun u => u.id != userId) }],
        .redirect 303⟩

/-! ### Token layer (`app/auth.py` lines 12-32, jose JWT)

The repository signs tokens with `jwt.encode({"sub": str(user.id),
"exp": expire}, SECRET_KEY, algorithm="HS256")` and verifies them with
`jwt.decode` under the same process-wide key; every resolver in the source
uses that one key.  The jose library is an external collaborator, modelled
here by an injective encoding of the claim set into a string whose character
set — like the base64url alphabet of the JWT compact serialization — contains no
space, with `jwtDecode` as its partial inverse: decoding returns the claims
exactly on well-formed unexpired tokens produced by `jwtEncode` and fails
(`JWTError` → `none`) on every other string, in particular on any
`"Bearer "`-prefixed cookie value.  Times are abstract `Nat` seconds; the
`sub` claim (a decimal string in the source, parsed back with `int`) is
carried as `Option Nat` since `payload.get("sub")` may be absent. -/

/-- Opaque digit blob of the payload (model: unary). -/
def encNat (n : Nat) : List Char := List.replicate n '9'

/-- Characters of the signed payload `{sub, exp}`. -/
def payloadChars : Option Nat → Nat → List Char
  | some s, e => 's' :: (encNat s ++ '.' :: encNat e)
  | none, e => 'n' :: '.' :: encNat e

/-- Characters of a full encoded token. -/
def jwtEncodeChars (sub : Option Nat) (exp : Nat) : List Char :=
  'j' :: 'w' :: 't' :: '.' :: payloadChars sub exp

/-- Model of `jwt.encode` with payload sub and exp under SECRET_KEY. -/
def jwtEncode (sub : Option Nat) (exp : Nat) : String :=
  ⟨jwtEncodeChars sub exp⟩

/-- Longest prefix of `'9'` characters together with the rest. -/
def takeNines : List Char → Nat × List Char
  | [] => (0, [])
  | c :: cs =>
    if c = '9' then
      let r := takeNines cs
      (r.1 + 1, r.2)
    else (0, c :: cs)

/-- Parse a payload; `none` on anything `payloadChars` cannot produce. -/
def parsePayload : List Char → Option (Option Nat × Nat)
  | 's' :: rest =>
    let r1 := takeNines rest
    match r1.2 with
    | '.' :: r2 =>
      let r3 := takeNines r2
      if r3.2 = [] then some (some r1.1, r3.1) else none
    | _ => none
  | 'n' :: '.' :: rest =>
    let r := takeNines rest
    if r.2 = [] then some (none, r.1) else none
  | _ => none

/-- Character-level `jwt.decode(…, SECRET_KEY, algorithms=["HS256"])`:
signature/shape check plus the `exp` check jose performs by default
(an expired token raises `ExpiredSignatureError ⊂ JWTError`). -/
def jwtDecodeChars (cs : List Char) (now : Nat) : Option (Option Nat × Nat) :=
  match cs with
  | 'j' :: 'w' :: 't' :: '.' :: rest =>
    match parsePayload rest with
    | some (sub, exp) => if now < exp then some (sub, exp) else none
    | none => none
  | _ => none

/-- Model of `jwt.decode` on a string. -/
def jwtDecode (s : String) (now : Nat) : Option (Option Nat × Nat) :=
  jwtDecodeChars s.data now

/-- The `exp` claim a token carries, ignoring expiry (used to state what
`create_access_token` issues). -/
def tokenExpiry (s : String) : Option Nat :=
  match s.data with
  | 'j' :: 'w' :: 't' :: '.' :: rest => (parsePayload rest).map (fun p => p.2)
  | _ => none

/-- Function `create_access_token` (`app/auth.py` lines 28-32): the absolute expiry is
`datetime.utcnow() + (expires_delta or timedelta(minutes=15))` — when no
`expires_delta` is passed the fallback is 15 minutes (900 s), although the
module constant `ACCESS_TOKEN_EXPIRE_MINUTES = 30` sits unused two lines
above.  `expiresDelta` is in seconds. -/
def createAccessToken (sub : Option Nat) (expiresDelta : Option Nat)
    (now : Nat) : String :=
  jwtEncode sub (now + expiresDelta.getD (15 * 60))

/-- The cookie value written by `login_web` (`app/api/auth_routes.py` lines
258-270): `"Bearer " + create_access_token({"sub": str(user.id)},
timedelta(minutes=30))`. -/
def loginWebCookieValue (uid : Nat) (issuedAt : Nat) : String :=
  "Bearer " ++ createAccessToken (some uid) (some (30 * 60)) issuedAt

/-! ### Session resolvers and guards (`app/auth.py`, `app/api/progress.py`) -/

/-- Outcome of an authentication dependency: a resolved user or an
`HTTPException` status. -/
inductive AuthResult where
  | ok (u : UserR)
  | err (status : Nat)
deriving Repr, DecidableEq

/-- Dependency `get_current_user` (`app/auth.py` lines 34-54): decode the bearer token,
read `sub`, load the user; every failure is the 401 `credentials_exception`. -/
def getCurrentUser (token : String) (db : DB) (now : Nat) : AuthResult :=
  match jwtDecode token now with
  | none => .err 401
  | some (sub, _) =>
    match sub with
    | none => .err 401
    | some uid =>
      match findUserById db uid with
      | none => .err 401
      | some u => .ok u

/-- Dependency `get_current_active_user` (`app/auth.py` lines 56-59): inactive users
are rejected with 400. -/
def getCurrentActiveUser (token : String) (db : DB) (now : Nat) : AuthResult :=
  match getCurrentUser token db now with
  | .err e => .err e
  | .ok u => if u.isActive = false then .err 400 else .ok u

/-- Guard `require_admin` (`app/auth.py` lines 61-64) composed with its
dependencies, including the `OAuth2PasswordBearer` extraction: a request
without an `Authorization: Bearer` header is rejected 401 by the scheme
(`auto_error=True`, documented FastAPI behaviour) before the handler
runs. -/
def requireAdmin (token : Option String) (db : DB) (now : Nat) : AuthResult :=
  match token with
  | none => .err 401
  | some t =>
    match getCurrentActiveUser t db now with
    | .err e => .err e
    | .ok u => if u.isAdmin = false then .err 403 else .ok u

/-- Resolver `get_user_from_cookie` in `app/auth.py` (lines 66-86): the raw cookie
value is handed to `jwt.decode` unchanged; a missing or empty cookie
(`if not token`) and every decode failure yield `None`, as does an inactive
or unknown user. -/
def getUserFromCookieAuth (cookie : Option String) (db : DB) (now : Nat) :
    Option UserR :=
  match cookie with
  | none => none
  | some t =>
    if t.data = [] then none
    else
      match jwtDecode t now with
      | none => none
      | some (sub, _) =>
        match sub with
        | none => none
        | some uid =>
          match findUserById db uid with
          | none => none
          | some u => if u.isActive = false then none else some u

/-- Guard `require_admin_cookie` (`app/auth.py` lines 88-104): no resolved user →
401; resolved non-admin → 403. -/
def requireAdminCookie (cookie : Option String) (db : DB) (now : Nat) :
    AuthResult :=
  match getUserFromCookieAuth cookie db now with
  | none => .err 401
  | some u => if u.isAdmin = false then .err 403 else .ok u

/-- Check `token.startswith("Bearer ")`. -/
def startsWithBearer : List Char → Bool
  | 'B' :: 'e' :: 'a' :: 'r' :: 'e' :: 'r' :: ' ' :: _ => true
  | _ => false

/-- Python `str.split(sep)` on a single-character separator. -/
def splitOnCharAux (sep : Char) : List Char → List Char → List (List Char)
  | [], acc => [acc.reverse]
  | c :: cs, acc =>
    if c = sep then acc.reverse :: splitOnCharAux sep cs []
    else splitOnCharAux sep cs (c :: acc)

/-- Python `str.split(sep)` on a single-character separator. -/
def splitOnChar (sep : Char) (cs : List Char) : List (List Char) :=
  splitOnCharAux sep cs []

/-- The shadowing `get_user_from_cookie` in `app/api/progress.py` (lines
17-41): requires the `"Bearer "` prefix (its absence, like an empty cookie,
yields `None`), strips it with `token.split(" ")[1]`, and only then decodes;
`JWTError`, `ValueError` and `TypeError` are all mapped to `None`.  The
`split(" ")[1]` subscript cannot fail once the prefix check passed, since
the value then contains a space. -/
def getUserFromCookieProgress (cookie : Option String) (db : DB) (now : Nat) :
    Option UserR :=
  match cookie with
  | none => none
  | some t =>
    if startsWithBearer t.data = false then none
    else
      match (splitOnChar ' ' t.data).get? 1 with
      | none => none
      | some tokChars =>
        match jwtDecodeChars tokChars now with
        | none => none
        | some (sub, _) =>
          match sub with
          | none => none
          | some uid =>
            match findUserById db uid with
            | none => none
            | some u => if u.isActive = false then none else some u

/-! ### Reachable states

One request = one operation; a request resolves its session user by id
through the cookie/dependency chain, which only ever yields an existing
active user. -/

/-- The user the session of a request resolves to: the stored row when it exists
and is active (both resolver families return `None`/401 otherwise). -/
def sessionUser (db : DB) (uid : Nat) : Option UserR :=
  match findUserById db uid with
  | some u => if u.isActive then some u else none
  | none => none

/-- One mutating Progress-Ledger request. -/
inductive Op where
  | complete (uid cid now : Nat)
  | reset (uid cid : Nat)
  | learn (uid cid now : Nat)
  | unlearn (uid cid : Nat)
  | updateAgg (uid : Nat) (upd : ProgressUpdate)
deriving Repr, DecidableEq

/-- Apply one request to the store (the state left by its commits). -/
def applyOp (db : DB) : Op → DB
  | .complete uid cid now => (completeCardWeb db (sessionUser db uid) cid now).final db
  | .reset uid cid => (resetCardWeb db (sessionUser db uid) cid).final db
  | .learn uid cid now => (learnCard db (sessionUser db uid) cid now).final db
  | .unlearn uid cid => (unlearnCard db (sessionUser db uid) cid).final db
  | .updateAgg uid upd =>
    match sessionUser db uid with
    | some u => (updateMyProgress db u upd).final db
    | none => db

/-- Run a sequence of requests. -/
def runOps (db : DB) : List Op → DB
  | [] => db
  | op :: ops => runOps (applyOp db op) ops

/-- Every Progress row has a non-negative `completed_cards`. -/
def nonnegAgg (db : DB) : Prop :=
  ∀ p ∈ db.progress, 0 ≤ p.completedCards

instance (db : DB) : Decidable (nonnegAgg db) :=
  inferInstanceAs (Decidable (∀ p ∈ db.progress, 0 ≤ p.completedCards))

/-- Every Progress row satisfies `0 ≤ completed_cards ≤ total_cards`. -/
def boundAgg (db : DB) : Prop :=
  ∀ p ∈ db.progress, 0 ≤ p.completedCards ∧ p.completedCards ≤ p.totalCards

instance (db : DB) : Decidable (boundAgg db) :=
  inferInstanceAs
    (Decidable (∀ p ∈ db.progress, 0 ≤ p.completedCards ∧ p.completedCards ≤ p.totalCards))

/-! ### Concrete fixtures used by witnesses and counterexamples -/

/-- An active ordinary user. -/
def demoUser : UserR := ⟨1, true, false⟩

/-- An active administrator. -/
def demoAdmin : UserR := ⟨2, true, true⟩

/-- A public card owned by the administrator. -/
def demoCard : CardR := ⟨1, 2, true⟩

/-- Fresh store: two users, one public card, no progress yet. -/
def demoDB : DB := ⟨[demoUser, demoAdmin], [demoCard], [], []⟩

/-- Store where `demoUser` has `completed_cards = 1` but no pair row. -/
def demoDBdrift : DB := ⟨[demoUser, demoAdmin], [demoCard], [⟨1, 1, 1, 0⟩], []⟩

/-- Store for the deletion scenario: user 1 has a Progress row and a
completed pair row; user 2 is the deleting admin. -/
def demoDBdelete : DB := ⟨[demoAdmin, demoUser], [], [⟨1, 3, 2, 0⟩], [⟨1, 1, true, none⟩]⟩

/-- Store for the aggregate-update scenario: user 1 has 2 of 5 completed. -/
def demoDBupdate : DB := ⟨[demoUser], [], [⟨1, 5, 2, 0⟩], []⟩

/-- Store where user 1 has a Progress row with `completed_cards = 0`. -/
def demoDBzero : DB := ⟨[demoUser, demoAdmin], [demoCard], [⟨1, 1, 0, 0⟩], []⟩

/-- Store where user 1 has completed the public card (pair row and counter
in sync). -/
def demoDBpair : DB :=
  ⟨[demoUser, demoAdmin], [demoCard], [⟨1, 1, 1, 0⟩], [⟨1, 1, true, some 3⟩]⟩

/-! ## Library lemmas about the embedding -/

theorem find?_updateFirst {α : Type} (p : α → Bool) (f : α → α) (l : List α) (x : α)
    (hfind : l.find? p = some x) (hp : p (f x) = true) :
    (updateFirst p f l).find? p = some (f x) := by
  induction l with
  | nil => simp at hfind
  | cons a t ih =>
    cases hpa : p a with
    | true =>
      rw [List.find?_cons_of_pos _ hpa] at hfind
      injection hfind with hx
      subst hx
      simp [updateFirst, hpa, List.find?_cons_of_pos _ hp]
    | false =>
      rw [List.find?_cons_of_neg _ (by simp [hpa])] at hfind
      have hu : updateFirst p f (a :: t) = a :: updateFirst p f t := by
        simp [updateFirst, hpa]
      rw [hu, List.find?_cons_of_neg _ (by simp [hpa])]
      exact ih hfind

theorem find?_append_of_none {α : Type} (p : α → Bool) (l l2 : List α)
    (h : l.find? p = none) : (l ++ l2).find? p = l2.find? p := by
  induction l with
  | nil => simp
  | cons a t ih =>
    cases hpa : p a with
    | true => rw [List.find?_cons_of_pos _ hpa] at h; exact absurd h (by simp)
    | false =>
      rw [List.find?_cons_of_neg _ (by simp [hpa])] at h
      rw [List.cons_append, List.find?_cons_of_neg _ (by simp [hpa])]
      exact ih h

theorem mem_updateFirst {α : Type} (p : α → Bool) (f : α → α) (l : List α) (y : α)
    (hy : y ∈ updateFirst p f l) :
    y ∈ l ∨ ∃ x, l.find? p = some x ∧ y = f x := by
  induction l with
  | nil => simp [updateFirst] at hy
  | cons a t ih =>
    cases hpa : p a with
    | true =>
      simp only [updateFirst, hpa, if_true] at hy
      rcases List.mem_cons.mp hy with rfl | hy2
      · exact Or.inr ⟨a, List.find?_cons_of_pos _ hpa, rfl⟩
      · exact Or.inl (List.mem_cons_of_mem _ hy2)
    | false =>
      simp only [updateFirst, hpa, if_false] at hy
      rcases List.mem_cons.mp hy with rfl | hy2
      · exact Or.inl (List.mem_cons_self _ _)
      · rcases ih hy2 with h | ⟨x, hx, rfl⟩
        · exact Or.inl (List.mem_cons_of_mem _ h)
        · refine Or.inr ⟨x, ?_, rfl⟩
          rw [List.find?_cons_of_neg _ (by simp [hpa])]
          exact hx

theorem takeNines_replicate_append (n : Nat) (l : List Char)
    (hl : ∀ r, l = '9' :: r → False) :
    takeNines (List.replicate n '9' ++ l) = (n, l) := by
  induction n with
  | zero =>
    simp only [List.replicate, List.nil_append]
    cases l with
    | nil => rfl
    | cons c r =>
      by_cases hc : c = '9'
      · exact absurd (by rw [hc]) (fun h => hl r h)
      · simp [takeNines, hc]
  | succ k ih =>
    simp [List.replicate_succ, List.cons_append, takeNines, ih]

theorem takeNines_replicate (n : Nat) :
    takeNines (List.replicate n '9') = (n, []) := by
  have := takeNines_replicate_append n [] (by intro r h; cases h)
  simpa using this

theorem parsePayload_payloadChars (sub : Option Nat) (e : Nat) :
    parsePayload (payloadChars sub e) = some (sub, e) := by
  cases sub with
  | none =>
    simp [payloadChars, parsePayload, encNat, takeNines_replicate]
  | some s =>
    have h1 : takeNines (List.replicate s '9' ++ '.' :: List.replicate e '9')
        = (s, '.' :: List.replicate e '9') := by
      apply takeNines_replicate_append
      intro r h
      injection h with h1 h2
      exact absurd h1 (by decide)
    simp [payloadChars, parsePayload, encNat, h1, takeNines_replicate]

theorem jwtEncode_data (sub : Option Nat) (exp : Nat) :
    (jwtEncode sub exp).data = jwtEncodeChars sub exp := rfl

theorem jwtDecodeChars_encode (sub : Option Nat) (exp now : Nat) (h : now < exp) :
    jwtDecodeChars (jwtEncodeChars sub exp) now = some (sub, exp) := by
  simp [jwtEncodeChars, jwtDecodeChars, parsePayload_payloadChars, h]

theorem jwtDecode_jwtEncode (sub : Option Nat) (exp now : Nat) (h : now < exp) :
    jwtDecode (jwtEncode sub exp) now = some (sub, exp) := by
  rw [jwtDecode, jwtEncode_data]
  exact jwtDecodeChars_encode sub exp now h

theorem tokenExpiry_jwtEncode (sub : Option Nat) (exp : Nat) :
    tokenExpiry (jwtEncode sub exp) = some exp := by
  show (parsePayload (payloadChars sub exp)).map (fun p => p.2) = some exp
  rw [parsePayload_payloadChars]
  rfl

theorem payloadChars_no_space (sub : Option Nat) (e : Nat) :
    ∀ c ∈ payloadChars sub e, c ≠ ' ' := by
  intro c hc
  cases sub with
  | none =>
    simp [payloadChars, encNat, List.mem_replicate] at hc
    rcases hc with rfl | rfl | ⟨-, rfl⟩ <;> decide
  | some sv =>
    simp [payloadChars, encNat, List.mem_replicate] at hc
    rcases hc with rfl | ⟨-, rfl⟩ | rfl | ⟨-, rfl⟩ <;> decide

theorem jwtEncodeChars_no_space (sub : Option Nat) (e : Nat) :
    ∀ c ∈ jwtEncodeChars sub e, c ≠ ' ' := by
  intro c hc
  simp [jwtEncodeChars] at hc
  rcases hc with rfl | rfl | rfl | rfl | hc
  · decide
  · decide
  · decide
  · decide
  · exact payloadChars_no_space sub e c hc

theorem splitOnCharAux_no_sep (sep : Char) (l acc : List Char)
    (h : ∀ c ∈ l, c ≠ sep) :
    splitOnCharAux sep l acc = [acc.reverse ++ l] := by
  induction l generalizing acc with
  | nil => simp [splitOnCharAux]
  | cons c cs ih =>
    have hc : ¬ (c = sep) := h c (List.mem_cons_self _ _)
    rw [splitOnCharAux, if_neg hc, ih (c :: acc) (fun d hd => h d (List.mem_cons_of_mem _ hd))]
    simp

theorem string_data_append (a b : String) : (a ++ b).data = a.data ++ b.data := rfl

theorem jwtDecodeChars_bearer (rest : List Char) (now : Nat) :
    jwtDecodeChars ('B' :: 'e' :: 'a' :: 'r' :: 'e' :: 'r' :: ' ' :: rest) now = none := rfl

theorem splitOnChar_bearer (tok : List Char) (h : ∀ c ∈ tok, c ≠ ' ') :
    splitOnChar ' ' ("Bearer ".data ++ tok) = ["Bearer".data, tok] := by
  have step : splitOnChar ' ' ("Bearer ".data ++ tok)
      = "Bearer".data :: splitOnCharAux ' ' tok [] := rfl
  rw [step, splitOnCharAux_no_sep ' ' tok [] h]
  simp


theorem Outcome_final_nil (db0 : DB) (r : Resp) : (Outcome.mk [] r).final db0 = db0 := rfl

theorem Outcome_final_single (d db0 : DB) (r : Resp) : (Outcome.mk [d] r).final db0 = d := rfl

theorem Outcome_final_two (d1 d2 db0 : DB) (r : Resp) :
    (Outcome.mk [d1, d2] r).final db0 = d2 := rfl

theorem findProgress_update (l : List ProgressR) (uid : Nat) (f : ProgressR → ProgressR)
    (q : ProgressR) (hfind : l.find? (fun p => p.userId == uid) = some q)
    (hf : (f q).userId = q.userId) :
    (updateFirst (fun p => p.userId == uid) f l).find? (fun p => p.userId == uid)
      = some (f q) := by
  apply find?_updateFirst _ _ _ _ hfind
  have h := List.find?_some hfind
  simp only [hf]
  exact h

theorem findUCP_update (l : List UCP) (uid cid : Nat) (f : UCP → UCP) (q : UCP)
    (hfind : l.find? (fun r => r.userId == uid && r.cardId == cid) = some q)
    (hfu : (f q).userId = q.userId) (hfc : (f q).cardId = q.cardId) :
    (updateFirst (fun r => r.userId == uid && r.cardId == cid) f l).find?
        (fun r => r.userId == uid && r.cardId == cid) = some (f q) := by
  apply find?_updateFirst _ _ _ _ hfind
  have h := List.find?_some hfind
  simp only [hfu, hfc]
  exact h

theorem find?_append_single {α : Type} (p : α → Bool) (l : List α) (x : α)
    (hl : l.find? p = none) (hx : p x = true) :
    (l ++ [x]).find? p = some x := by
  rw [find?_append_of_none p l [x] hl, List.find?_cons_of_pos _ hx]

theorem findProgress_set_ucps (db : DB) (X : List UCP) (uid : Nat) :
    findProgress { db with ucps := X } uid = findProgress db uid := rfl

theorem progress_set_ucps (db : DB) (X : List UCP) :
    ({ db with ucps := X } : DB).progress = db.progress := rfl

/-! ## Preservation of the lower bound on the aggregate -/

theorem nonneg_updateFirst_inc (l : List ProgressR) (uid : Nat)
    (h : ∀ p ∈ l, 0 ≤ p.completedCards) :
    ∀ p ∈ updateFirst (fun p => p.userId == uid)
        (fun p => { p with completedCards := p.completedCards + 1 }) l,
      0 ≤ p.completedCards := by
  intro p hp
  rcases mem_updateFirst _ _ _ _ hp with hmem | ⟨x, hx, rfl⟩
  · exact h p hmem
  · have := h x (List.mem_of_find?_eq_some hx)
    simp only []
    omega

theorem nonneg_updateFirst_dec (l : List ProgressR) (uid : Nat) (q : ProgressR)
    (hq : l.find? (fun p => p.userId == uid) = some q) (hqpos : q.completedCards > 0)
    (h : ∀ p ∈ l, 0 ≤ p.completedCards) :
    ∀ p ∈ updateFirst (fun p => p.userId == uid)
        (fun p => { p with completedCards := p.completedCards - 1 }) l,
      0 ≤ p.completedCards := by
  intro p hp
  rcases mem_updateFirst _ _ _ _ hp with hmem | ⟨x, hx, rfl⟩
  · exact h p hmem
  · rw [hq] at hx
    injection hx with hx
    subst hx
    simp only []
    omega

theorem nonneg_append (l : List ProgressR) (row : ProgressR)
    (h : ∀ p ∈ l, 0 ≤ p.completedCards) (hrow : 0 ≤ row.completedCards) :
    ∀ p ∈ l ++ [row], 0 ≤ p.completedCards := by
  intro p hp
  rcases List.mem_append.mp hp with hmem | hmem
  · exact h p hmem
  · rcases List.mem_singleton.mp hmem with rfl
    exact hrow

theorem nonneg_complete (db : DB) (cu : Option UserR) (cid now : Nat)
    (h : nonnegAgg db) : nonnegAgg ((completeCardWeb db cu cid now).final db) := by
  unfold nonnegAgg at h ⊢
  unfold completeCardWeb
  rcases cu with _ | u
  · simpa using h
  · dsimp only
    split
    · simpa using h
    · split
      · simpa using h
      · split
        · simpa using h
        · cases hucp : findUCP db u.id cid with
          | some pr =>
            cases hpc : pr.isCompleted with
            | true =>
              simp only [hucp, hpc, Bool.true_eq_false, if_false, Outcome_final_single]
              split
              · simpa using h
              · exact nonneg_append _ _ h (by simp)
            | false =>
              simp only [hucp, hpc, if_true, Outcome_final_single]
              split
              · exact nonneg_updateFirst_inc _ _ h
              · exact nonneg_append _ _ h (by simp)
          | none =>
            simp only [hucp, Outcome_final_single]
            split
            · exact nonneg_updateFirst_inc _ _ h
            · exact nonneg_append _ _ h (by simp)

theorem nonneg_learn (db : DB) (cu : Option UserR) (cid now : Nat)
    (h : nonnegAgg db) : nonnegAgg ((learnCard db cu cid now).final db) := by
  unfold nonnegAgg at h ⊢
  unfold learnCard
  rcases cu with _ | u
  · simpa using h
  · dsimp only
    split
    · simpa using h
    · split
      · simpa using h
      · split
        · simpa using h
        · simp only [findProgress_set_ucps, progress_set_ucps]
          cases hprog : findProgress db u.id with
          | some q =>
            simp only [hprog, Outcome_final_two, progress_set_ucps]
            exact nonneg_updateFirst_inc _ _ h
          | none =>
            simp only [hprog, Outcome_final_two, progress_set_ucps]
            exact nonneg_append _ _ h (by simp)

theorem nonneg_reset (db : DB) (cu : Option UserR) (cid : Nat)
    (h : nonnegAgg db) : nonnegAgg ((resetCardWeb db cu cid).final db) := by
  unfold nonnegAgg at h ⊢
  unfold resetCardWeb
  rcases cu with _ | u
  · simpa using h
  · dsimp only
    split
    · simpa using h
    · split
      · simpa using h
      · split
        · simpa using h
        · split
          · simpa using h
          · cases hprog : findProgress db u.id with
            | none =>
              simp only [hprog, Outcome_final_single]
              exact h
            | some q =>
              by_cases hq : q.completedCards > 0
              · simp only [hprog, hq, if_true, Outcome_final_single]
                exact nonneg_updateFirst_dec _ _ q hprog hq h
              · simp only [hprog, hq, if_false, Outcome_final_single]
                exact h

theorem nonneg_unlearn (db : DB) (cu : Option UserR) (cid : Nat)
    (h : nonnegAgg db) : nonnegAgg ((unlearnCard db cu cid).final db) := by
  unfold nonnegAgg at h ⊢
  unfold unlearnCard
  rcases cu with _ | u
  · simpa using h
  · dsimp only
    split
    · simpa using h
    · split
      · simpa using h
      · split
        · simpa using h
        · cases hucp : findUCP db u.id cid with
          | some pr =>
            simp only [hucp, findProgress_set_ucps, progress_set_ucps]
            cases hprog : findProgress db u.id with
            | none =>
              simp only [hprog, Outcome_final_single, progress_set_ucps]
              exact h
            | some q =>
              by_cases hq : q.completedCards > 0
              · simp only [hprog, hq, if_true, Outcome_final_two, progress_set_ucps]
                exact nonneg_updateFirst_dec _ _ q hprog hq h
              · simp only [hprog, hq, if_false, Outcome_final_single, progress_set_ucps]
                exact h
          | none =>
            simp only [hucp]
            cases hprog : findProgress db u.id with
            | none =>
              simp only [hprog, Outcome_final_nil]
              exact h
            | some q =>
              by_cases hq : q.completedCards > 0
              · simp only [hprog, hq, if_true, Outcome_final_single]
                exact nonneg_updateFirst_dec _ _ q hprog hq h
              · simp only [hprog, hq, if_false, Outcome_final_nil]
                exact h

theorem nonneg_updateAgg (db : DB) (u : UserR) (upd : ProgressUpdate)
    (h : nonnegAgg db) : nonnegAgg ((updateMyProgress db u upd).final db) := by
  unfold nonnegAgg at h ⊢
  unfold updateMyProgress
  cases hprog : findProgress db u.id with
  | none => simpa using h
  | some prog =>
    dsimp only
    split
    · simpa using h
    · split
      · simpa using h
      · split
        · simpa using h
        · rename_i h1 h2 h3
          simp only [Outcome_final_single]
          intro p hp
          rcases mem_updateFirst _ _ _ _ hp with hmem | ⟨x, hx, rfl⟩
          · exact h p hmem
          · have hxnn := h x (List.mem_of_find?_eq_some hx)
            cases hcc : upd.completedCards with
            | none => simpa [hcc] using hxnn
            | some v =>
              have hvnn : 0 ≤ v := by
                by_contra hneg
                exact h1 (by simp [hcc]; omega)
              simpa [hcc] using hvnn

theorem nonneg_applyOp (db : DB) (op : Op) (h : nonnegAgg db) :
    nonnegAgg (applyOp db op) := by
  cases op with
  | complete uid cid now => exact nonneg_complete db _ cid now h
  | reset uid cid => exact nonneg_reset db _ cid h
  | learn uid cid now => exact nonneg_learn db _ cid now h
  | unlearn uid cid => exact nonneg_unlearn db _ cid h
  | updateAgg uid upd =>
    dsimp only [applyOp]
    cases hsu : sessionUser db uid with
    | none => exact h
    | some u => exact nonneg_updateAgg db u upd h

/-! ## Claims -/

/-- Claim C1, counterexample.  The claim quantifies over both markComplete
implementations; the `learn_card` route refutes it: starting from a fresh
store, two successive `learn_card` calls on the same (user, card) raise the
aggregate from 0 to 2 — the second call finds the pair row already
completed yet still increments `completed_cards`, so the total change is +2,
not +1. -/
theorem C1_counterexample :
    pairCompleted ((learnCard demoDB (some demoUser) 1 5).final demoDB) 1 1 = true ∧
    completedOf ((learnCard demoDB (some demoUser) 1 5).final demoDB) 1 = some 1 ∧
    completedOf ((learnCard ((learnCard demoDB (some demoUser) 1 5).final demoDB)
      (some demoUser) 1 6).final ((learnCard demoDB (some demoUser) 1 5).final demoDB)) 1
      = some 2 := by
  decide

/-- Claim C1 (amended): for the `complete_card_web` implementation the claim
holds — for any store, non-admin user and existing public card, when the
per-pair row is already completed the call leaves the `completed_cards`
aggregate of the user unchanged, and when it is not completed the call sets
the pair to completed and raises the aggregate by exactly one (0 counting as
the value of a missing Progress row, which the call then initialises) — so
two successive calls change the aggregate by exactly +1 in total.  The
`learn_card` route does not satisfy this (see the counterexample). -/
theorem C1_completeCardWeb_idempotent_aggregate (db : DB) (u : UserR) (card : CardR)
    (cid now : Nat) (hadmin : u.isAdmin = false) (hcard : findCard db cid = some card)
    (hpub : card.isPublic = true) :
    (pairCompleted db u.id cid = true →
      completedOf ((completeCardWeb db (some u) cid now).final db) u.id
        = some (completedOrZero db u.id)) ∧
    (pairCompleted db u.id cid = false →
      completedOf ((completeCardWeb db (some u) cid now).final db) u.id
        = some (completedOrZero db u.id + 1) ∧
      pairCompleted ((completeCardWeb db (some u) cid now).final db) u.id cid = true) := by
  cases hucp : findUCP db u.id cid with
  | some pr =>
    cases hpc : pr.isCompleted with
    | true =>
      refine ⟨fun _ => ?_, fun hfalse => ?_⟩
      · cases hprog : findProgress db u.id with
        | some q =>
          simp only [completeCardWeb, hadmin, hcard, hpub, hucp, hpc, hprog,
            Bool.false_eq_true, if_false, Bool.true_eq_false, Option.isSome_some,
            if_true, Outcome_final_single]
          have hpf : List.find? (fun p => p.userId == u.id) db.progress = some q := hprog
          simp [completedOf, completedOrZero, findProgress, hpf]
        | none =>
          simp only [completeCardWeb, hadmin, hcard, hpub, hucp, hpc, hprog,
            Bool.false_eq_true, if_false, Bool.true_eq_false, Option.isSome_none,
            if_true, Outcome_final_single]
          have happ : (db.progress ++ [(⟨u.id, countPublicCards db, 0, 0⟩ : ProgressR)]).find?
              (fun p => p.userId == u.id) = some ⟨u.id, countPublicCards db, 0, 0⟩ :=
            find?_append_single _ _ _ hprog (by simp)
          have hpf : List.find? (fun p => p.userId == u.id) db.progress = none := hprog
          simp [completedOf, completedOrZero, findProgress, hpf, happ]
      · exfalso
        simp [pairCompleted, hucp, hpc] at hfalse
    | false =>
      refine ⟨fun htrue => ?_, fun _ => ?_⟩
      · exfalso
        simp [pairCompleted, hucp, hpc] at htrue
      · have hpair : (updateFirst (fun r => r.userId == u.id && r.cardId == cid)
            (fun r => { r with isCompleted := true, completedAt := some now }) db.ucps).find?
            (fun r => r.userId == u.id && r.cardId == cid)
            = some { pr with isCompleted := true, completedAt := some now } :=
          findUCP_update _ _ _ _ _ hucp rfl rfl
        cases hprog : findProgress db u.id with
        | some q =>
          have hinc : (updateFirst (fun p => p.userId == u.id)
              (fun p => { p with completedCards := p.completedCards + 1 }) db.progress).find?
              (fun p => p.userId == u.id)
              = some { q with completedCards := q.completedCards + 1 } :=
            findProgress_update _ _ _ _ hprog rfl
          simp only [completeCardWeb, hadmin, hcard, hpub, hucp, hpc, hprog,
            Bool.false_eq_true, if_false, Bool.true_eq_false, Option.isSome_some,
            if_true, Outcome_final_single]
          have hpf : List.find? (fun p => p.userId == u.id) db.progress = some q := hprog
          constructor
          · simp [completedOf, completedOrZero, findProgress, hpf, hinc]
          · simp [pairCompleted, findUCP, hpair]
        | none =>
          have happ : (db.progress ++ [(⟨u.id, countPublicCards db, 1, 0⟩ : ProgressR)]).find?
              (fun p => p.userId == u.id) = some ⟨u.id, countPublicCards db, 1, 0⟩ :=
            find?_append_single _ _ _ hprog (by simp)
          simp only [completeCardWeb, hadmin, hcard, hpub, hucp, hpc, hprog,
            Bool.false_eq_true, if_false, Bool.true_eq_false, Option.isSome_none,
            if_true, Outcome_final_single]
          have hpf : List.find? (fun p => p.userId == u.id) db.progress = none := hprog
          constructor
          · simp [completedOf, completedOrZero, findProgress, hpf, happ]
          · simp [pairCompleted, findUCP, hpair]
  | none =>
    refine ⟨fun htrue => ?_, fun _ => ?_⟩
    · exfalso
      simp [pairCompleted, hucp] at htrue
    · have hpair : (db.ucps ++ [(⟨u.id, cid, true, some now⟩ : UCP)]).find?
          (fun r => r.userId == u.id && r.cardId == cid)
          = some ⟨u.id, cid, true, some now⟩ :=
        find?_append_single _ _ _ hucp (by simp)
      cases hprog : findProgress db u.id with
      | some q =>
        have hinc : (updateFirst (fun p => p.userId == u.id)
            (fun p => { p with completedCards := p.completedCards + 1 }) db.progress).find?
            (fun p => p.userId == u.id)
            = some { q with completedCards := q.completedCards + 1 } :=
          findProgress_update _ _ _ _ hprog rfl
        have hpf : List.find? (fun p => p.userId == u.id) db.progress = some q := hprog
        simp only [completeCardWeb, hadmin, hcard, hpub, hucp, hprog,
          Bool.false_eq_true, if_false, Bool.true_eq_false, Option.isSome_some,
          if_true, Outcome_final_single]
        constructor
        · simp [completedOf, completedOrZero, findProgress, hpf, hinc]
        · simp [pairCompleted, findUCP, hpair]
      | none =>
        have happ : (db.progress ++ [(⟨u.id, countPublicCards db, 1, 0⟩ : ProgressR)]).find?
            (fun p => p.userId == u.id) = some ⟨u.id, countPublicCards db, 1, 0⟩ :=
          find?_append_single _ _ _ hprog (by simp)
        have hpf : List.find? (fun p => p.userId == u.id) db.progress = none := hprog
        simp only [completeCardWeb, hadmin, hcard, hpub, hucp, hprog,
          Bool.false_eq_true, if_false, Bool.true_eq_false, Option.isSome_none,
          if_true, Outcome_final_single]
        constructor
        · simp [completedOf, completedOrZero, findProgress, hpf, happ]
        · simp [pairCompleted, findUCP, hpair]

/-- Claim C1 witness: the theorem applied to the fresh demo store — the
first web completion raises the aggregate from 0 to 1 and completes the
pair. -/
theorem C1_witness :
    completedOf ((completeCardWeb demoDB (some demoUser) 1 5).final demoDB) demoUser.id
      = some (completedOrZero demoDB demoUser.id + 1) ∧
    pairCompleted ((completeCardWeb demoDB (some demoUser) 1 5).final demoDB)
      demoUser.id 1 = true :=
  (C1_completeCardWeb_idempotent_aggregate demoDB demoUser demoCard 1 5 (by decide)
    (by decide) (by decide)).2 (by decide)

/-- Claim C2, counterexample.  `learn_card` does not commit the pair upsert
and the aggregate increment as one atomic unit: on the demo store it
performs two commits, and the first committed state already has the pair
marked completed while `completed_cards` is still 0 — a failure between the
two commits leaves the dual state inconsistent. -/
theorem C2_counterexample :
    (learnCard demoDBzero (some demoUser) 1 7).commits.length = 2 ∧
    ((learnCard demoDBzero (some demoUser) 1 7).commits.head?).map
      (fun d => (pairCompleted d 1 1, completedOf d 1)) = some (true, some 0) ∧
    pairCompleted demoDBzero 1 1 = false ∧ completedOf demoDBzero 1 = some 0 := by
  decide

/-- Claim C2 (amended): the web endpoints are atomic — `complete_card_web`
and `reset_card_web` perform at most one commit on every path, so the pair
write and the aggregate write always land together or not at all.  The
`learn_card`/`unlearn_card` routes commit in two separate transactions (see
the counterexample). -/
theorem C2_web_single_commit (db : DB) (cu : Option UserR) (cid now : Nat) :
    (completeCardWeb db cu cid now).commits.length ≤ 1 ∧
    (resetCardWeb db cu cid).commits.length ≤ 1 := by
  constructor
  · unfold completeCardWeb
    repeat' split <;> try simp
  · unfold resetCardWeb
    repeat' split <;> try simp

/-- Claim C3, counterexample.  The upper bound is not an invariant: from
the demo store (which satisfies `0 ≤ completed ≤ total`), the reachable
state after two `learn_card` requests for the same card has
`completed_cards = 2 > total_cards = 1`. -/
theorem C3_counterexample :
    boundAgg demoDB ∧
    ¬ boundAgg (runOps demoDB [.learn 1 1 5, .learn 1 1 6]) := by
  decide

/-- Claim C3 (amended): the lower bound does hold — for every starting
store whose Progress rows all have `0 ≤ completed_cards`, every state
reachable by any sequence of markComplete (`complete_card_web`,
`learn_card`), markIncomplete (`reset_card_web`, `unlearn_card`) and
updateAggregate (`update_my_progress`) requests still has
`0 ≤ completed_cards` in every Progress row: both decrement paths clamp at
zero and the direct update validates.  The upper bound
`completed_cards ≤ total_cards` is refuted by the counterexample. -/
theorem C3_completed_cards_nonneg (db : DB) (ops : List Op) (h : nonnegAgg db) :
    nonnegAgg (runOps db ops) := by
  induction ops generalizing db with
  | nil => exact h
  | cons op rest ih => exact ih (applyOp db op) (nonneg_applyOp db op h)

/-- Claim C3 witness: the invariant theorem applied to the demo store and a
concrete request sequence that exercises learn, double unlearn (clamping)
and reset. -/
theorem C3_witness :
    nonnegAgg demoDB ∧
    nonnegAgg (runOps demoDB [.learn 1 1 5, .unlearn 1 1, .unlearn 1 1, .reset 1 1]) :=
  ⟨by decide, C3_completed_cards_nonneg demoDB
    [.learn 1 1 5, .unlearn 1 1, .unlearn 1 1, .reset 1 1] (by decide)⟩

/-- Claim C4, counterexample.  `unlearn_card` does not fail when no
completed per-pair record exists: on a store where user 1 has
`completed_cards = 1` but no pair row at all, the call succeeds with a 303
redirect and still decrements the aggregate to 0. -/
theorem C4_counterexample :
    pairCompleted demoDBdrift 1 1 = false ∧
    (unlearnCard demoDBdrift (some demoUser) 1).resp = .redirect 303 ∧
    completedOf ((unlearnCard demoDBdrift (some demoUser) 1).final demoDBdrift) 1
      = some 0 := by
  decide

/-- Claim C4 (amended): the `reset_card_web` implementation behaves as
claimed — for an existing card the caller may access, when no per-pair
record with `is_completed = true` exists it fails with 404 and commits
nothing (the aggregate is untouched), and on success it returns the
redirect, clears the completion flag and timestamp of the pair row, and
decrements the aggregate by one when it was positive (clamped at zero; no
decrement when the Progress row is absent).  The `unlearn_card` route
violates the claim (see the counterexample). -/
theorem C4_resetCardWeb_spec (db : DB) (u : UserR) (card : CardR) (cid : Nat)
    (hcard : findCard db cid = some card)
    (hacc : resetAccessDenied db u card = false) :
    (pairCompleted db u.id cid = false →
      resetCardWeb db (some u) cid = ⟨[], .err 404⟩) ∧
    (∀ p : UCP, findUCP db u.id cid = some p → p.isCompleted = true →
      (resetCardWeb db (some u) cid).resp = .redirect 303 ∧
      findUCP ((resetCardWeb db (some u) cid).final db) u.id cid
        = some { p with isCompleted := false, completedAt := none } ∧
      completedOf ((resetCardWeb db (some u) cid).final db) u.id
        = (findProgress db u.id).map (fun q =>
            if q.completedCards > 0 then q.completedCards - 1 else q.completedCards)) := by
  constructor
  · intro hpc
    cases hucp : findUCP db u.id cid with
    | none => simp [resetCardWeb, hcard, hacc, hucp]
    | some p =>
      have hfalse : p.isCompleted = false := by
        simpa [pairCompleted, hucp] using hpc
      simp [resetCardWeb, hcard, hacc, hucp, hfalse]
  · intro p hucp hcomp
    have hpair : (updateFirst (fun r => r.userId == u.id && r.cardId == cid)
        (fun r => { r with isCompleted := false, completedAt := none }) db.ucps).find?
        (fun r => r.userId == u.id && r.cardId == cid)
        = some { p with isCompleted := false, completedAt := none } :=
      findUCP_update _ _ _ _ _ hucp rfl rfl
    cases hprog : findProgress db u.id with
    | none =>
      simp only [resetCardWeb, hcard, hacc, hucp, hcomp, hprog, Bool.false_eq_true,
        if_false, Bool.true_eq_false, Outcome_final_single]
      refine ⟨trivial, ?_, ?_⟩
      · simp [findUCP, hpair]
      · have hpf : List.find? (fun q => q.userId == u.id) db.progress = none := hprog
        simp [completedOf, findProgress, hpf]
    | some q =>
      by_cases hq : q.completedCards > 0
      · have hdec : (updateFirst (fun r => r.userId == u.id)
            (fun r => { r with completedCards := r.completedCards - 1 }) db.progress).find?
            (fun r => r.userId == u.id)
            = some { q with completedCards := q.completedCards - 1 } :=
          findProgress_update _ _ _ _ hprog rfl
        simp only [resetCardWeb, hcard, hacc, hucp, hcomp, hprog, hq, Bool.false_eq_true,
          if_false, Bool.true_eq_false, if_true, Outcome_final_single]
        refine ⟨trivial, ?_, ?_⟩
        · simp [findUCP, hpair]
        · simp [completedOf, findProgress, hdec, hq]
      · have hpf : List.find? (fun r => r.userId == u.id) db.progress = some q := hprog
        simp only [resetCardWeb, hcard, hacc, hucp, hcomp, hprog, hq, Bool.false_eq_true,
          if_false, Bool.true_eq_false, Outcome_final_single]
        refine ⟨trivial, ?_, ?_⟩
        · simp [findUCP, hpair]
        · simp [completedOf, findProgress, hpf, hq]

/-- Claim C4 witness: the theorem applied to a store where the pair is
completed and the aggregate is 1 — the reset succeeds, clears the pair and
decrements the aggregate. -/
theorem C4_witness :
    (resetCardWeb demoDBpair (some demoUser) 1).resp = .redirect 303 ∧
    findUCP ((resetCardWeb demoDBpair (some demoUser) 1).final demoDBpair) demoUser.id 1
      = some ⟨1, 1, false, none⟩ ∧
    completedOf ((resetCardWeb demoDBpair (some demoUser) 1).final demoDBpair) demoUser.id
      = (findProgress demoDBpair demoUser.id).map (fun q =>
          if q.completedCards > 0 then q.completedCards - 1 else q.completedCards) :=
  (C4_resetCardWeb_spec demoDBpair demoUser demoCard 1 (by decide) (by decide)).2
    ⟨1, 1, true, some 3⟩ (by decide) (by decide)

/-- Claim C5: the direct aggregate update `update_my_progress` rejects any
requested `completed_cards` outside `[0, total_cards]` (checked against the
stored `total_cards`) and any negative `marked_important` with a 400
validation error before committing; on such a rejection nothing is
committed, so the stored Progress row is unchanged. -/
theorem C5_updateAggregate_rejects (db : DB) (u : UserR) (upd : ProgressUpdate)
    (prog : ProgressR) (hprog : findProgress db u.id = some prog)
    (hbad : (∃ v, upd.completedCards = some v ∧ (v < 0 ∨ prog.totalCards < v)) ∨
            (∃ m, upd.markedImportant = some m ∧ m < 0)) :
    updateMyProgress db u upd = ⟨[], .err 400⟩ ∧
    (updateMyProgress db u upd).final db = db := by
  have h : updateMyProgress db u upd = ⟨[], .err 400⟩ := by
    unfold updateMyProgress
    rw [hprog]
    rcases hbad with ⟨v, hv, hvbad⟩ | ⟨m, hm, hneg⟩
    · rw [hv]
      rcases hvbad with hlt | hgt
      · simp [hlt]
      · by_cases h0 : v < 0
        · simp [h0]
        · simp [h0, hgt]
    · rw [hm]
      cases hcc : upd.completedCards with
      | none => simp [hneg]
      | some v =>
        by_cases h0 : v < 0
        · simp [h0]
        · by_cases h1 : prog.totalCards < v
          · simp [h0, h1]
          · simp [h0, h1, hneg]
  exact ⟨h, by rw [h, Outcome_final_nil]⟩

/-- Claim C5 witness: requesting `completed_cards = 6` against a stored
`total_cards = 5` is rejected with 400 and the store is unchanged. -/
theorem C5_witness :
    updateMyProgress demoDBupdate demoUser ⟨none, some 6, none⟩ = ⟨[], .err 400⟩ ∧
    (updateMyProgress demoDBupdate demoUser ⟨none, some 6, none⟩).final demoDBupdate
      = demoDBupdate :=
  C5_updateAggregate_rejects demoDBupdate demoUser ⟨none, some 6, none⟩ ⟨1, 5, 2, 0⟩
    (by decide) (Or.inl ⟨6, rfl, Or.inr (by decide)⟩)

/-- Claim C6, counterexample.  The `learn_card` route does not fail with
Forbidden for an admin caller: it returns a silent 303 redirect (with no
state change), so the universally quantified claim — every markComplete
path yields Forbidden for admins — is false. -/
theorem C6_counterexample :
    demoAdmin.isAdmin = true ∧
    (learnCard demoDB (some demoAdmin) 1 5).resp = .redirect 303 ∧
    ¬ (learnCard demoDB (some demoAdmin) 1 5).resp = .err 403 := by
  decide

/-- Claim C6 (amended): for every admin caller and every card,
`complete_card_web` fails with Forbidden (403) without committing anything,
while `learn_card` silently redirects (303), also without committing
anything — neither path changes any per-pair row or aggregate, but only the
web endpoint signals Forbidden. -/
theorem C6_admin_markComplete (db : DB) (u : UserR) (cid now : Nat)
    (h : u.isAdmin = true) :
    completeCardWeb db (some u) cid now = ⟨[], .err 403⟩ ∧
    learnCard db (some u) cid now = ⟨[], .redirect 303⟩ := by
  constructor
  · simp [completeCardWeb, h]
  · simp [learnCard, h]

/-- Claim C6 witness: the theorem applied to the demo admin. -/
theorem C6_witness :
    completeCardWeb demoDB (some demoAdmin) 1 5 = ⟨[], .err 403⟩ ∧
    learnCard demoDB (some demoAdmin) 1 5 = ⟨[], .redirect 303⟩ :=
  C6_admin_markComplete demoDB demoAdmin 1 5 (by decide)

/-- Claim C7: for both admin gates (`require_admin` over the bearer header
and `require_admin_cookie` over the session cookie): a request carrying no
token yields 401, a request whose token does not decode yields 401, and a
request carrying a valid unexpired token of an existing active non-admin
user yields 403 — never 401. -/
theorem C7_auth_separation (db : DB) (now : Nat) :
    (requireAdmin none db now = .err 401) ∧
    (∀ s : String, jwtDecode s now = none → requireAdmin (some s) db now = .err 401) ∧
    (∀ (s : String) (u : UserR) (e : Nat),
      jwtDecode s now = some (some u.id, e) → findUserById db u.id = some u →
      u.isActive = true → u.isAdmin = false →
      requireAdmin (some s) db now = .err 403) ∧
    (requireAdminCookie none db now = .err 401) ∧
    (∀ s : String, jwtDecode s now = none → requireAdminCookie (some s) db now = .err 401) ∧
    (∀ (s : String) (u : UserR) (e : Nat),
      jwtDecode s now = some (some u.id, e) → findUserById db u.id = some u →
      u.isActive = true → u.isAdmin = false →
      requireAdminCookie (some s) db now = .err 403) := by
  refine ⟨rfl, ?_, ?_, rfl, ?_, ?_⟩
  · intro s hdec
    simp [requireAdmin, getCurrentActiveUser, getCurrentUser, hdec]
  · intro s u e hdec hfind hact hadm
    simp [requireAdmin, getCurrentActiveUser, getCurrentUser, hdec, hfind, hact, hadm]
  · intro s hdec
    simp [requireAdminCookie, getUserFromCookieAuth, hdec]
  · intro s u e hdec hfind hact hadm
    have hne : s.data ≠ [] := by
      intro h
      rw [jwtDecode, h] at hdec
      simp [jwtDecodeChars] at hdec
    simp [requireAdminCookie, getUserFromCookieAuth, hne, hdec, hfind, hact, hadm]

/-- Claim C7 witness: on the demo store, a garbage token yields 401 on both
gates, and a valid token of the active non-admin user yields 403 on both
gates. -/
theorem C7_witness :
    requireAdmin (some "garbage") demoDB 4 = .err 401 ∧
    requireAdmin (some (jwtEncode (some 1) 5)) demoDB 4 = .err 403 ∧
    requireAdminCookie (some "garbage") demoDB 4 = .err 401 ∧
    requireAdminCookie (some (jwtEncode (some 1) 5)) demoDB 4 = .err 403 := by
  refine ⟨?_, ?_, ?_, ?_⟩
  · exact (C7_auth_separation demoDB 4).2.1 "garbage" (by decide)
  · exact (C7_auth_separation demoDB 4).2.2.1 (jwtEncode (some 1) 5) demoUser 5 (by decide)
      (by decide) (by decide) (by decide)
  · exact (C7_auth_separation demoDB 4).2.2.2.2.1 "garbage" (by decide)
  · exact (C7_auth_separation demoDB 4).2.2.2.2.2 (jwtEncode (some 1) 5) demoUser 5
      (by decide) (by decide) (by decide) (by decide)

/-- Claim C8: evaluation at the failing input.  Deleting user 1 through the
API path `delete_user` removes only the users row: the Progress row and the
UserCardProgress row of user 1 remain readable afterwards, contradicting
the claim (and the docstring of the endpoint itself).  The web path
`delete_user_admin` on the same store does delete both dependent rows. -/
theorem C8_delete_paths :
    (deleteUser demoDBdelete demoAdmin 1).resp = .ok ∧
    findUserById ((deleteUser demoDBdelete demoAdmin 1).final demoDBdelete) 1 = none ∧
    findProgress ((deleteUser demoDBdelete demoAdmin 1).final demoDBdelete) 1
      = some ⟨1, 3, 2, 0⟩ ∧
    findUCP ((deleteUser demoDBdelete demoAdmin 1).final demoDBdelete) 1 1
      = some ⟨1, 1, true, none⟩ ∧
    findProgress ((deleteUserAdmin demoDBdelete demoAdmin 1).final demoDBdelete) 1 = none ∧
    findUCP ((deleteUserAdmin demoDBdelete demoAdmin 1).final demoDBdelete) 1 1 = none := by
  decide

/-- Claim C9, counterexample.  A token issued by `create_access_token`
without an explicit TTL expires 15 minutes (900 s) after issuance, not 30
minutes: the fallback in the function body is `timedelta(minutes=15)`. -/
theorem C9_counterexample :
    tokenExpiry (createAccessToken (some 1) none 0) = some (15 * 60) ∧
    tokenExpiry (createAccessToken (some 1) none 0) ≠ some (30 * 60) := by
  have h : tokenExpiry (createAccessToken (some 1) none 0) = some (15 * 60) := by
    show tokenExpiry (jwtEncode (some 1) (0 + 15 * 60)) = _
    rw [tokenExpiry_jwtEncode]
  refine ⟨h, ?_⟩
  rw [h]
  decide

/-- Claim C9 (amended): called without an explicit TTL,
`create_access_token` issues a token whose absolute expiry is exactly 15
minutes after issuance (the unused module constant says 30); with an
explicit TTL the expiry is issuance plus that TTL — the two login endpoints
pass 30 minutes explicitly, which is where the 30-minute window of real
sessions comes from. -/
theorem C9_token_ttl (sub : Option Nat) (now d : Nat) :
    tokenExpiry (createAccessToken sub none now) = some (now + 15 * 60) ∧
    tokenExpiry (createAccessToken sub (some d) now) = some (now + d) := by
  constructor
  · show tokenExpiry (jwtEncode sub (now + 15 * 60)) = _
    exact tokenExpiry_jwtEncode _ _
  · show tokenExpiry (jwtEncode sub (now + d)) = _
    exact tokenExpiry_jwtEncode _ _

/-- Claim C10: for every cookie in the exact format written by `login_web`
(`"Bearer " + token`), the resolver `get_user_from_cookie` of `app/auth.py`
returns `None` — it hands the prefixed string to JWT decoding, which fails —
while the shadowing resolver of `app/api/progress.py` strips the prefix
first and resolves the (existing, active) user; the two resolvers are not
equivalent on such inputs. -/
theorem C10_cookie_resolvers (db : DB) (u : UserR) (t0 now : Nat)
    (hact : u.isActive = true) (hfind : findUserById db u.id = some u)
    (hnow : now < t0 + 30 * 60) :
    getUserFromCookieAuth (some (loginWebCookieValue u.id t0)) db now = none ∧
    getUserFromCookieProgress (some (loginWebCookieValue u.id t0)) db now = some u := by
  have hdata : (loginWebCookieValue u.id t0).data
      = "Bearer ".data ++ jwtEncodeChars (some u.id) (t0 + 30 * 60) := rfl
  constructor
  · have hdec : jwtDecode (loginWebCookieValue u.id t0) now = none := by
      rw [jwtDecode, hdata]
      exact jwtDecodeChars_bearer _ now
    have hne : (loginWebCookieValue u.id t0).data ≠ [] := by
      rw [hdata]
      simp
    simp [getUserFromCookieAuth, hdec, hne]
  · have hsb : startsWithBearer (loginWebCookieValue u.id t0).data = true := rfl
    have hsplit : splitOnChar ' ' (loginWebCookieValue u.id t0).data
        = ["Bearer".data, jwtEncodeChars (some u.id) (t0 + 30 * 60)] := by
      rw [hdata]
      exact splitOnChar_bearer _ (jwtEncodeChars_no_space _ _)
    simp [getUserFromCookieProgress, hsb, hsplit,
      jwtDecodeChars_encode (some u.id) (t0 + 30 * 60) now hnow, hfind, hact]

/-- Claim C10 witness: the theorem applied to the demo user logging in at
time 0 and presenting the cookie at time 3. -/
theorem C10_witness :
    getUserFromCookieAuth (some (loginWebCookieValue demoUser.id 0)) demoDB 3 = none ∧
    getUserFromCookieProgress (some (loginWebCookieValue demoUser.id 0)) demoDB 3
      = some demoUser :=
  C10_cookie_resolvers demoDB demoUser 0 3 (by decide) (by decide) (by decide)

end ProjectWord
